import Mathlib

set_option maxHeartbeats 1000000

/-!
Shallow embedding of the jsonrpc-rs core (wire model, timer wheel, callback
pool, client send/receive loops, server session dispatch and the legacy
server accept loop), with theorems checking the specification's claims.
-/

/-- JSON values, the model of `serde_json::Value`. -/
inductive Json where
  | null : Json
  | bool (b : Bool) : Json
  | num (n : Int) : Json
  | str (s : String) : Json
  | arr (xs : List Json) : Json
  | obj (kvs : List (String × Json)) : Json

/-- Pointwise update of a function-backed map, the model of `HashMap::insert`
(`v = some _`) and `HashMap::remove` (`v = none`). -/
def update {α : Type} (f : Nat → α) (k : Nat) (v : α) : Nat → α :=
  fun n => if n = k then v else f n

/-- Model of `ErrorCode` from `src/object.rs` (the current wire model): the five
standard JSON-RPC codes plus `ServerError(i64, String)`. -/
inductive ErrorCode where
  | parseError : ErrorCode
  | invalidRequest : ErrorCode
  | methodNotFound : ErrorCode
  | invalidParams : ErrorCode
  | internalError : ErrorCode
  | serverError (code : Int) (message : String) : ErrorCode
deriving DecidableEq

/-- Model of `ErrorCode::serialize` from `src/object.rs`: the numeric wire form. -/
def errorCodeToI64 : ErrorCode → Int
  | .parseError => -32700
  | .invalidRequest => -32600
  | .methodNotFound => -32601
  | .invalidParams => -32602
  | .internalError => -32603
  | .serverError code _ => code

/-- The `thiserror` display strings of `ErrorCode` in `src/object.rs`. -/
def errorCodeDisplay : ErrorCode → String
  | .parseError => "Invalid JSON was received by the server."
  | .invalidRequest => "The JSON sent is not a valid Request object."
  | .methodNotFound => "The method does not exist / is not available."
  | .invalidParams => "Invalid method parameter(s)."
  | .internalError => "Internal JSON-RPC error."
  | .serverError code message => "Server error(" ++ toString code ++ ")," ++ message

/-- The reserved server-error range test exactly as written in
`ErrorCode::deserialize` (`src/object.rs` and `src/lib.rs`):
`code > -32000 && code < -32099`. -/
def serverErrorRangeTest (code : Int) : Bool :=
  decide (code > -32000) && decide (code < -32099)

/-- Model of `ErrorCode::deserialize` from `src/object.rs`: match the five standard
codes, otherwise run the range test and either build `ServerError(code, "")`
or fail with the custom decode error message. -/
def errorCodeFromI64 (code : Int) : Except String ErrorCode :=
  if code = -32700 then .ok .parseError
  else if code = -32600 then .ok .invalidRequest
  else if code = -32601 then .ok .methodNotFound
  else if code = -32602 then .ok .invalidParams
  else if code = -32603 then .ok .internalError
  else if serverErrorRangeTest code then .ok (.serverError code "")
  else .error ("Invalid JSONRPC error code " ++ toString code)

/-- Serialization of `Request<S, P>` from `src/object.rs` to a JSON object,
as the ordered member list produced by the serde derive: the fields in
declaration order `id`, `jsonrpc`, `method`, `params`, where `id` carries
`#[serde(skip_serializing_if = "Option::is_none")]` and is therefore emitted
only when it is `Some`, and `Version` serializes to the literal `"2.0"`. -/
def requestMembers (id : Option Nat) (method : String) (params : Json) :
    List (String × Json) :=
  (match id with
   | some i => [("id", Json.num (Int.ofNat i))]
   | none => []) ++
  [("jsonrpc", Json.str "2.0"), ("method", Json.str method), ("params", params)]

/-- The serialized `Request` as a JSON value. -/
def requestToJson (id : Option Nat) (method : String) (params : Json) : Json :=
  Json.obj (requestMembers id method params)

/-- The crate's error object `Error<String, Value>` (alias `RPCError` in
`src/result.rs`): code, message and optional data. -/
structure RPCError where
  code : ErrorCode
  message : String
  data : Option Json

/-- Model of `Response::serialize` for a success reply `Response::<String, R, ()>
{ id, result: Some(r), ..Default::default() }` (`src/server/handler.rs`):
members in declaration order `id`, `jsonrpc`, `result`, with the absent
`error` skipped by `skip_serializing_if`. -/
def responseOkJson (id : Nat) (result : Json) : Json :=
  Json.obj [("id", Json.num (Int.ofNat id)), ("jsonrpc", Json.str "2.0"),
            ("result", result)]

/-- Model of `new_error_resp` from `src/server/session.rs` / `src/server.rs`: the
serialized error reply `Response::<String, (), ()>` whose `error` member is
`Error { code, message: message.unwrap_or(code.to_string()), data: None }`.
The `result` member is skipped (`None`); the `Error` struct has no skip
attribute on `data`, so `data` is rendered as an explicit `null`. -/
def new_error_resp (id : Nat) (code : ErrorCode) (message : Option String) : Json :=
  Json.obj [("id", Json.num (Int.ofNat id)), ("jsonrpc", Json.str "2.0"),
            ("error", Json.obj [("code", Json.num (errorCodeToI64 code)),
                                ("message", Json.str (message.getD (errorCodeDisplay code))),
                                ("data", Json.null)])]

/-- A decoded `Request<&str, serde_json::Value>`. -/
structure ReqV where
  id : Option Nat
  method : String
  params : Json

/-- A decoded `Response<String, Value, Value>`: `result` and `error` are both
optional on the wire (`skip_serializing_if` in `src/object.rs`). -/
structure RespV where
  id : Nat
  result : Option Json
  error : Option RPCError

/-! ## Timer wheel (`src/timer/timerwheel.rs`) -/

/-- Model of `TimeWheel<T>`: hashed slots (slot index to list of `(round, value)`
entries, `None` modelling an absent `HashMap` key), the slot count `steps`,
and the current tick counter `tick`. -/
structure TimeWheel (T : Type) where
  hashed : Nat → Option (List (Nat × T))
  steps : Nat
  tick : Nat

/-- Model of `TimeWheel::new(steps)`. -/
def TimeWheel.new (T : Type) (steps : Nat) : TimeWheel T :=
  { hashed := fun _ => none, steps := steps, tick := 0 }

/-- Model of `TimeWheel::add(timeout, value)`: pushes
`(round := (timeout + tick) / steps, value)` onto slot
`(timeout + tick) % steps` (creating the slot list when absent). -/
def TimeWheel.add {T : Type} (w : TimeWheel T) (timeout : Nat) (value : T) :
    TimeWheel T :=
  let slot := (timeout + w.tick) % w.steps
  let slots := (w.hashed slot).getD []
  { w with hashed :=
      update w.hashed slot (some (slots ++ [((timeout + w.tick) / w.steps, value)])) }

/-- Model of `TimeWheel::tick()`: examine slot `tick % steps`, advance `tick`; if the
slot key is present, split its entries into the ready list (`round == 0`, in
order) and the reserved list (`round` decremented, reinserted under the same
key), returning `Poll::Ready(ready)`; otherwise return `Poll::Pending`
(modelled as `none`). -/
def TimeWheel.tickOnce {T : Type} (w : TimeWheel T) :
    TimeWheel T × Option (List T) :=
  let step := w.tick % w.steps
  match w.hashed step with
  | some slots =>
      let current := slots.filterMap (fun e => if e.1 = 0 then some e.2 else none)
      let reserved := slots.filterMap
        (fun e => if e.1 = 0 then none else some (e.1 - 1, e.2))
      ({ w with tick := w.tick + 1, hashed := update w.hashed step (some reserved) },
       some current)
  | none => ({ w with tick := w.tick + 1 }, none)

/-- Iterating `n` successive calls of `TimeWheel::tick()` (dropping the ready sets). -/
def TimeWheel.tickN {T : Type} (w : TimeWheel T) : Nat → TimeWheel T
  | 0 => w
  | n + 1 => (w.tickOnce).1.tickN n

/-- The ready list returned by the `(n + 1)`-th call of `tick()` (indexing
from `n = 0`), with `Poll::Pending` read as the empty ready list. -/
def TimeWheel.readyAt {T : Type} (w : TimeWheel T) (n : Nat) : List T :=
  ((w.tickN n).tickOnce).2.getD []

/-- Number of entries in the wheel (over the live slots `0 ≤ s < steps`)
whose stored value satisfies `p`. -/
def TimeWheel.countP {T : Type} (w : TimeWheel T) (p : T → Bool) : Nat :=
  ∑ s ∈ Finset.range w.steps, ((w.hashed s).getD []).countP (fun e => p e.2)

/-- Number of values satisfying `p` delivered in the ready sets of the first
`n` calls of `tick()`. -/
def TimeWheel.readyCountN {T : Type} (w : TimeWheel T) (p : T → Bool) :
    Nat → Nat
  | 0 => 0
  | n + 1 => ((w.tickOnce).2.getD []).countP p + (w.tickOnce).1.readyCountN p n

/-- The number of `tick()` calls after which an entry `(r, v)` currently in
slot `s` fires: the distance (mod `steps`) from the currently examined slot
to `s`, plus one full rotation per remaining round. The entry appears in
`readyAt w (fireDelay ..)`. -/
def TimeWheel.fireDelay {T : Type} (w : TimeWheel T) (s r : Nat) : Nat :=
  (s + w.steps - w.tick % w.steps) % w.steps + r * w.steps

/-! ## Callback pool (`src/callback.rs`) -/

/-- Model of `CallbackPoolImpl<Output>`: the waker table and the fired-value table,
both `HashMap`s keyed by id (modelled as function-backed maps). `W` is the
abstract waker type. -/
structure CallbackPoolImpl (Output W : Type) where
  wakers : Nat → Option W
  fired : Nat → Option Output

/-- Model of `CallbackPoolImpl::poll(id, waker)`: if a fired value is present it is
removed and returned ready (`some`); otherwise the waker is stored and the
poll is pending (`none`). -/
def CallbackPoolImpl.poll {O W : Type} (s : CallbackPoolImpl O W) (id : Nat)
    (waker : W) : CallbackPoolImpl O W × Option O :=
  match s.fired id with
  | some data => ({ s with fired := update s.fired id none }, some data)
  | none => ({ s with wakers := update s.wakers id (some waker) }, none)

/-- Model of `CallbackPoolImpl::complete(id, output)`: unconditionally
`fired.insert(id, output)` (overwriting any value already stored), then
remove and wake the registered waker if any. The second component lists the
wakers woken. -/
def CallbackPoolImpl.complete {O W : Type} (s : CallbackPoolImpl O W)
    (id : Nat) (output : O) : CallbackPoolImpl O W × List W :=
  let s1 : CallbackPoolImpl O W := { s with fired := update s.fired id (some output) }
  match s1.wakers id with
  | some w => ({ s1 with wakers := update s1.wakers id none }, [w])
  | none => (s1, [])

/-- The empty pool (`CallbackPoolImpl::new`), at `Output := Nat`,
`W := Unit`. -/
def emptyPool : CallbackPoolImpl Nat Unit :=
  { wakers := fun _ => none, fired := fun _ => none }

/-! ## Client loops (`src/client/send.rs`, `src/client/recv.rs`) -/

/-- The id recovered by re-parsing queued bytes in `send_loop`
(`serde_json::from_slice::<Request<String, Value>>(&item).id`): the optional
`id` member of the serialized request object. -/
def requestIdOfJson (j : Json) : Option Nat :=
  match j with
  | .obj kvs =>
      match kvs.lookup "id" with
      | some (.num n) => some n.toNat
      | _ => none
  | _ => none

/-- Model of `send_loop` from `src/client/send.rs`. The queue is the list of
serialized items; `sendOk k` is the outcome of the `k`-th `output.send`.
For each item: on success the item is written to the transport; on failure
the queued bytes are re-parsed, and when an id is recovered the pending call
is completed with the send error (recorded here by id). In both cases the
loop moves on to the next queued item (`while let` with no break). Returns
(items written, ids completed with the send error), each in order. -/
def sendLoop (sendOk : Nat → Bool) : List Json → Nat → List Json × List Nat
  | [], _ => ([], [])
  | item :: rest, k =>
      let r := sendLoop sendOk rest (k + 1)
      if sendOk k then (item :: r.1, r.2)
      else
        match requestIdOfJson item with
        | some id => (r.1, id :: r.2)
        | none => (r.1, r.2)

/-- Observable effects of the client receive loop on the completion queue. -/
inductive ClientAction where
  | complete (id : Nat) (result : Except RPCError Json) : ClientAction
  | cancelAll : ClientAction

/-- Model of `recv_loop` from `src/client/recv.rs`. An input item is
`.error ()` for a stream error, or `.ok d` for a frame whose decode as
`Response<String, Value, Value>` gave `d` (`none` = parse failure); the end
of the list is the end of the stream. Per the source: a stream error does
`cancel_all` and breaks (followed by the trailing `cancel_all`); end of
stream breaks (trailing `cancel_all` only); a parse failure does
`cancel_all` and returns the error directly; a decoded response completes
its id with `Ok(result)`, else `Err(error)`, else — when both members are
absent — `Ok(Value::Null)`. Returns the emitted actions and `run`'s result. -/
def recvLoop : List (Except Unit (Option RespV)) →
    List ClientAction × Except Unit Unit
  | [] => ([.cancelAll], .ok ())
  | .error _ :: _ => ([.cancelAll, .cancelAll], .ok ())
  | .ok none :: _ => ([.cancelAll], .error ())
  | .ok (some resp) :: rest =>
      let a : ClientAction :=
        match resp.result with
        | some r => .complete resp.id (.ok r)
        | none =>
            match resp.error with
            | some e => .complete resp.id (.error e)
            | none => .complete resp.id (.ok Json.null)
      let r := recvLoop rest
      (a :: r.1, r.2)

/-! ## Server session (`src/server/session.rs`) and legacy server
(`src/server.rs`) -/

/-- A cloned server method handler: `(id, params)` to
`Result<Option<RPCData>, ErrorCode>` (the shape consumed by
`handle_resp`). -/
def ServerHandler : Type := Option Nat → Json → Except ErrorCode (Option Json)

/-- How a session loop ended: normally, or by one of the three `?`
early returns (stream error, frame decode error, sink send error). -/
inductive SessionExit where
  | ok : SessionExit
  | streamError : SessionExit
  | parseError : SessionExit
  | sendError : SessionExit
deriving DecidableEq

/-- Model of `ServiceSession::run` from `src/server/session.rs`. Input items are
`.error ()` (stream error) or `.ok d` with `d` the decode of the frame as
`Request<&str, Value>` (`none` = decode failure). `sinkOk k` is the outcome
of the `k`-th `output.send`. Per the source: a stream error or a frame
decode failure is propagated with `?`, ending the loop; a request is looked
up in the sync registry then the async registry and, when found, handled by
`handle_resp` (send the `Ok(Some(data))` payload; on handler error send
`new_error_resp(id, code, None)` when an id is present, else log only); a
method found in neither registry is skipped silently. Returns the frames
written to the output sink and how the loop ended. -/
def sessionRun (sinkOk : Nat → Bool) (methods asyncMethods : List (String × ServerHandler)) :
    List (Except Unit (Option ReqV)) → Nat → List Json → List Json × SessionExit
  | [], _, outs => (outs, .ok)
  | .error _ :: _, _, outs => (outs, .streamError)
  | .ok none :: _, _, outs => (outs, .parseError)
  | .ok (some req) :: rest, k, outs =>
      match (methods.lookup req.method).orElse (fun _ => asyncMethods.lookup req.method) with
      | some h =>
          match h req.id req.params with
          | .ok (some response) =>
              if sinkOk k then sessionRun sinkOk methods asyncMethods rest (k + 1) (outs ++ [response])
              else (outs, .sendError)
          | .ok none => sessionRun sinkOk methods asyncMethods rest k outs
          | .error code =>
              match req.id with
              | some id =>
                  if sinkOk k then
                    sessionRun sinkOk methods asyncMethods rest (k + 1)
                      (outs ++ [new_error_resp id code none])
                  else (outs, .sendError)
              | none => sessionRun sinkOk methods asyncMethods rest k outs
      | none => sessionRun sinkOk methods asyncMethods rest k outs

/-- Model of `Server::accept` from `src/server.rs` (the legacy server loop), same
conventions as `sessionRun`. Differences faithful to the source: a frame
that fails to decode is logged and the loop continues; a method found in
neither registry with an id present is answered by
`new_error_resp(id, MethodNotFound, Some("Method not found {method}"))`,
and without an id it is only logged. -/
def serverAccept (sinkOk : Nat → Bool) (methods asyncMethods : List (String × ServerHandler)) :
    List (Except Unit (Option ReqV)) → Nat → List Json → List Json × SessionExit
  | [], _, outs => (outs, .ok)
  | .error _ :: _, _, outs => (outs, .streamError)
  | .ok none :: rest, k, outs => serverAccept sinkOk methods asyncMethods rest k outs
  | .ok (some req) :: rest, k, outs =>
      match (methods.lookup req.method).orElse (fun _ => asyncMethods.lookup req.method) with
      | some h =>
          match h req.id req.params with
          | .ok (some response) =>
              if sinkOk k then serverAccept sinkOk methods asyncMethods rest (k + 1) (outs ++ [response])
              else (outs, .sendError)
          | .ok none => serverAccept sinkOk methods asyncMethods rest k outs
          | .error code =>
              match req.id with
              | some id =>
                  if sinkOk k then
                    serverAccept sinkOk methods asyncMethods rest (k + 1)
                      (outs ++ [new_error_resp id code none])
                  else (outs, .sendError)
              | none => serverAccept sinkOk methods asyncMethods rest k outs
      | none =>
          match req.id with
          | some id =>
              if sinkOk k then
                serverAccept sinkOk methods asyncMethods rest (k + 1)
                  (outs ++ [new_error_resp id .methodNotFound
                              (some ("Method not found " ++ req.method))])
              else (outs, .sendError)
          | none => serverAccept sinkOk methods asyncMethods rest k outs

/-! ## Handler factories (`src/server/handler.rs`) -/

/-- The params normalization in `to_handler` / `to_async_handler`: when the
incoming `params` value is an array of length exactly 1, replace it by its
element 0; every other value passes through unchanged. -/
def unwrapSingleton : Json → Json
  | .arr l => if h : l.length = 1 then l.get ⟨0, by omega⟩ else .arr l
  | v => v

/-- The handler body built by `to_handler` (`src/server/handler.rs`),
parametric over the serde pieces: `d` deserializes the (normalized) params
into `P` and yields the serde error display on failure, `f` is the
registered user handler, `enc` serializes the user result `R`. A decode
failure becomes `RPCError { code: InvalidParams, message: format!("{}", e) }`;
a success `Some(r)` is serialized into a response only when an id is
present; otherwise the handler yields `Ok(None)`. -/
def toHandlerCall {P R : Type} (d : Json → Except String P)
    (f : P → Except RPCError (Option R)) (enc : R → Json)
    (id : Option Nat) (value : Json) : Except RPCError (Option Json) :=
  let v := unwrapSingleton value
  match d v with
  | .error e => .error { code := .invalidParams, message := e, data := none }
  | .ok request =>
      match f request with
      | .error e => .error e
      | .ok response =>
          match id, response with
          | some i, some r => .ok (some (responseOkJson i (enc r)))
          | _, _ => .ok none

/-- The handler body built by `to_async_handler` (`src/server/handler.rs`);
the future is awaited inline, so its observable behaviour coincides with the
synchronous shape, including the same params normalization. -/
def toAsyncHandlerCall {P R : Type} (d : Json → Except String P)
    (f : P → Except RPCError (Option R)) (enc : R → Json)
    (id : Option Nat) (value : Json) : Except RPCError (Option Json) :=
  let v := unwrapSingleton value
  match d v with
  | .error e => .error { code := .invalidParams, message := e, data := none }
  | .ok request =>
      match f request with
      | .error e => .error e
      | .ok response =>
          match id, response with
          | some i, some r => .ok (some (responseOkJson i (enc r)))
          | _, _ => .ok none

/-- An `echo` handler as produced by `to_handler` with identity serde pieces,
its `RPCError` mapped to its code for the session's `handle_resp` shape. -/
def echoHandler : ServerHandler := fun id v =>
  (toHandlerCall (fun j => .ok j) (fun p => .ok (some p)) (fun r => r) id v).mapError (·.code)

/-- A sync registry holding only the `echo` handler. -/
def echoRegistry : List (String × ServerHandler) := [("echo", echoHandler)]

/-- A small concrete wheel: two slots, an entry `(round 0, 5)` in slot 0 and
an entry `(round 1, 9)` in slot 1 (added with timeout 3 at tick 0). -/
def demoWheel : TimeWheel Nat := ((TimeWheel.new Nat 2).add 0 5).add 3 9

/-! ## Theorems -/

/-- Claim C1 (code bug evidence): the reserved server-error range test
`code > -32000 && code < -32099` written in `ErrorCode::deserialize` is
unsatisfiable, so numeric decoding rejects every non-standard code — in
particular `-32050`, inside the claimed `ServerError` range, fails with the
decode error — while the five standard codes map to their variants. -/
theorem errorCode_serverError_range_unsat :
    (∀ n : Int, serverErrorRangeTest n = false) ∧
    errorCodeFromI64 (-32050) = .error "Invalid JSONRPC error code -32050" ∧
    errorCodeFromI64 (-32700) = .ok .parseError ∧
    errorCodeFromI64 (-32600) = .ok .invalidRequest ∧
    errorCodeFromI64 (-32601) = .ok .methodNotFound ∧
    errorCodeFromI64 (-32602) = .ok .invalidParams ∧
    errorCodeFromI64 (-32603) = .ok .internalError := by
  refine ⟨?_, rfl, rfl, rfl, rfl, rfl, rfl⟩
  intro n
  simp only [serverErrorRangeTest, Bool.and_eq_false_iff, decide_eq_false_iff_not]
  omega

/-- Claim C2: a serialized `Request` whose `id` is absent (a notification)
contains no `id` member at all — in particular no `"id": null` — for every
method name and params value. -/
theorem request_notification_omits_id :
    ∀ (method : String) (params : Json),
      (requestMembers none method params).all (fun kv => !(kv.1 == "id")) = true := by
  intro method params
  rfl

/-- Claim C3 (counterexample): with the `echo` handler registered, feed the
session an undecodable first frame followed by a valid `echo` request with
id 1. `ServiceSession::run` terminates at the bad frame with the parse
error and writes nothing — it does not continue with the second frame —
whereas the legacy `Server::accept` on the same input logs, continues, and
answers the second frame. -/
theorem session_decode_error_terminates_cx :
    sessionRun (fun _ => true) echoRegistry []
      [Except.ok none, Except.ok (some ⟨some 1, "echo", Json.str "hi"⟩)] 0 [] =
      ([], .parseError) ∧
    serverAccept (fun _ => true) echoRegistry []
      [Except.ok none, Except.ok (some ⟨some 1, "echo", Json.str "hi"⟩)] 0 [] =
      ([responseOkJson 1 (Json.str "hi")], .ok) := by
  exact ⟨rfl, rfl⟩

/-- Claim C3 (amended): an undecodable inbound frame makes
`ServiceSession::run` return the decode error immediately — whatever frames
follow are never processed and nothing further is sent — while the legacy
`Server::accept` logs the frame and continues with the rest of the input. -/
theorem session_decode_error_behavior :
    (∀ (sinkOk : Nat → Bool) (methods asyncMethods : List (String × ServerHandler))
       (rest : List (Except Unit (Option ReqV))) (k : Nat) (outs : List Json),
      sessionRun sinkOk methods asyncMethods (Except.ok none :: rest) k outs =
        (outs, .parseError)) ∧
    (∀ (sinkOk : Nat → Bool) (methods asyncMethods : List (String × ServerHandler))
       (rest : List (Except Unit (Option ReqV))) (k : Nat) (outs : List Json),
      serverAccept sinkOk methods asyncMethods (Except.ok none :: rest) k outs =
        serverAccept sinkOk methods asyncMethods rest k outs) :=
  ⟨fun _ _ _ _ _ _ => rfl, fun _ _ _ _ _ _ => rfl⟩

/-- Claim C4 (code bug evidence): a request for the unregistered method
`"nope"` with id 1 gets no reply at all from `ServiceSession::run` (the
run ends normally having sent nothing), whereas the legacy `Server::accept`
replies with `MethodNotFound` and a message naming the method, and for the
id-less notification form sends nothing. -/
theorem session_unknown_method_silent :
    sessionRun (fun _ => true) [] []
      [Except.ok (some ⟨some 1, "nope", Json.null⟩)] 0 [] = ([], .ok) ∧
    serverAccept (fun _ => true) [] []
      [Except.ok (some ⟨some 1, "nope", Json.null⟩)] 0 [] =
      ([new_error_resp 1 .methodNotFound (some "Method not found nope")], .ok) ∧
    serverAccept (fun _ => true) [] []
      [Except.ok (some ⟨none, "nope", Json.null⟩)] 0 [] = ([], .ok) := by
  exact ⟨rfl, rfl, rfl⟩

/-- Claim C5 (counterexample): with a sink that fails every send and two
serialized requests (ids 1 and 2) queued, `send_loop` completes BOTH ids
with the send error — it pulls and processes the second item after the
first failure instead of terminating. -/
theorem send_loop_continues_after_failure_cx :
    sendLoop (fun _ => false)
      [requestToJson (some 1) "echo" (Json.str "a"),
       requestToJson (some 2) "echo" (Json.str "b")] 0 = ([], [1, 2]) := rfl

/-- Claim C5 (amended): on a sink failure the send loop recovers the
optional id from the queued bytes and completes that call with the send
error, then CONTINUES with the remaining queued items; it terminates only
when the queue is exhausted. Every queued item is either written (successful
send) or — when its send fails and an id is recoverable — surfaces as a
completion, in queue order. -/
theorem send_loop_processes_all_items :
    ∀ (sendOk : Nat → Bool) (items : List Json) (k : Nat),
      sendLoop sendOk items k =
        ((items.enumFrom k).filterMap (fun p => if sendOk p.1 then some p.2 else none),
         (items.enumFrom k).filterMap
           (fun p => if sendOk p.1 then none else requestIdOfJson p.2)) := by
  intro sendOk items
  induction items with
  | nil => intro k; rfl
  | cons a l ih =>
      intro k
      by_cases h : sendOk k
      · simp [sendLoop, List.enumFrom, h, ih (k + 1)]
      · cases hid : requestIdOfJson a <;>
          simp [sendLoop, List.enumFrom, h, hid, ih (k + 1)]

/-- The state of `complete` leaves `fired` overwritten with the new value,
whichever waker branch is taken. -/
theorem complete_fst_fired {O W : Type} (s : CallbackPoolImpl O W) (id : Nat)
    (v : O) : ((s.complete id v).1).fired = update s.fired id (some v) := by
  simp only [CallbackPoolImpl.complete]
  split <;> rfl

/-- Claim C6 (counterexample): from the empty pool, `complete(1, 10)` then
`complete(1, 20)` then a consumer `poll(1)` observes `20`, the value of the
SECOND completion, not the first. -/
theorem callback_complete_last_wins_cx :
    ((((emptyPool.complete 1 10).1).complete 1 20).1.poll 1 ()).2 = some 20 ∧
    decide (((((emptyPool.complete 1 10).1).complete 1 20).1.poll 1 ()).2 = some 10)
      = false := ⟨rfl, rfl⟩

/-- Claim C6 (amended): `complete` overwrites the stored value, so when
`complete` runs twice for the same id before the consumer polls, the
consumer observes the value of the LAST invocation; delivery through `poll`
removes the stored value, so an immediately following poll of the same id
is pending again. -/
theorem callback_complete_overwrite_poll :
    (∀ (O W : Type) (s : CallbackPoolImpl O W) (id : Nat) (v1 v2 : O) (w : W),
      ((((s.complete id v1).1).complete id v2).1.poll id w).2 = some v2) ∧
    (∀ (O W : Type) (s : CallbackPoolImpl O W) (id : Nat) (v : O) (w w' : W),
      ((s.complete id v).1.poll id w).2 = some v ∧
      (((s.complete id v).1.poll id w).1.poll id w').2 = none) := by
  constructor
  · intro O W s id v1 v2 w
    simp [CallbackPoolImpl.poll, complete_fst_fired, update]
  · intro O W s id v w w'
    have hf := complete_fst_fired s id v
    constructor
    · simp [CallbackPoolImpl.poll, hf, update]
    · simp [CallbackPoolImpl.poll, hf, update]

/-- Claim C7 (code bug evidence): on a wheel with one slot that has already
ticked once (`tick = 1`), `add(0, 7)` stores the entry with
`round = (0 + tick) / steps = 1`, so the very next `tick()` returns
`Ready([])` — the claimed ready set does not contain the value — and only
the tick after that returns `Ready([7])`. -/
theorem timewheel_zero_timeout_delayed :
    ((((TimeWheel.new Nat 1).tickOnce).1.add 0 7).tickOnce).2 = some [] ∧
    (((((TimeWheel.new Nat 1).tickOnce).1.add 0 7).tickOnce).1.tickOnce).2 =
      some [7] := ⟨rfl, rfl⟩

/-- Claim C8: when the receive loop decodes a well-formed `Response` in
which both `result` and `error` are absent, it completes the pending call
for that id with `Ok(Value::Null)` and goes on with the rest of the input —
the frame is neither dropped nor treated as a failure. -/
theorem recv_null_result_completes_ok_null :
    ∀ (id : Nat) (rest : List (Except Unit (Option RespV))),
      recvLoop (Except.ok (some ⟨id, none, none⟩) :: rest) =
        (ClientAction.complete id (.ok Json.null) :: (recvLoop rest).1,
         (recvLoop rest).2) := by
  intro id rest
  rfl

/-- Claim C9: the params normalization of `to_handler` and
`to_async_handler` unwraps exactly the one-element JSON array — every other
array length and every non-array value passes through unchanged — and both
handler bodies feed the normalized value to the parameter deserializer (the
probe deserializer observes `unwrapSingleton v` and its display lands in the
`InvalidParams` message). -/
theorem handler_params_singleton_unwrap :
    (∀ x : Json, unwrapSingleton (.arr [x]) = x) ∧
    (∀ l : List Json, l.length ≠ 1 → unwrapSingleton (.arr l) = .arr l) ∧
    (unwrapSingleton .null = .null) ∧
    (∀ b, unwrapSingleton (.bool b) = .bool b) ∧
    (∀ n, unwrapSingleton (.num n) = .num n) ∧
    (∀ s, unwrapSingleton (.str s) = .str s) ∧
    (∀ kvs, unwrapSingleton (.obj kvs) = .obj kvs) ∧
    (∀ (P R : Type) (probe : Json → String) (f : P → Except RPCError (Option R))
       (enc : R → Json) (id : Option Nat) (v : Json),
      toHandlerCall (fun j => .error (probe j)) f enc id v =
        .error { code := .invalidParams, message := probe (unwrapSingleton v),
                 data := none }) ∧
    (∀ (P R : Type) (probe : Json → String) (f : P → Except RPCError (Option R))
       (enc : R → Json) (id : Option Nat) (v : Json),
      toAsyncHandlerCall (fun j => .error (probe j)) f enc id v =
        .error { code := .invalidParams, message := probe (unwrapSingleton v),
                 data := none }) := by
  refine ⟨fun x => rfl, ?_, rfl, fun b => rfl, fun n => rfl, fun s => rfl,
          fun kvs => rfl, fun P R probe f enc id v => rfl,
          fun P R probe f enc id v => rfl⟩
  intro l h
  simp [unwrapSingleton, h]

/-- Witness for C9 at concrete inputs: the two-element array is not
unwrapped. -/
theorem handler_params_singleton_unwrap_witness :
    unwrapSingleton (.arr [.str "a", .str "b"]) = .arr [.str "a", .str "b"] :=
  handler_params_singleton_unwrap.2.1 [.str "a", .str "b"] (by decide)

/-- Closed form of the slot distance `(s + S - a) % S` for `a, s < S`. -/
theorem dist_closed (a s S : Nat) (hS : 0 < S) (ha : a < S) (hs : s < S) :
    (s + S - a) % S = if a ≤ s then s - a else s + S - a := by
  by_cases h : a ≤ s
  · rw [if_pos h]
    have he : s + S - a = s - a + S := by omega
    rw [he, Nat.add_mod_right]
    exact Nat.mod_eq_of_lt (by omega)
  · rw [if_neg h]
    exact Nat.mod_eq_of_lt (by omega)

/-- Stepping the modulus: `(a + 1) % S` in terms of `a % S`. -/
theorem succ_mod (a S : Nat) (hS : 0 < S) :
    (a + 1) % S = if a % S + 1 = S then 0 else a % S + 1 := by
  have hlt : a % S < S := Nat.mod_lt _ hS
  by_cases h : a % S + 1 = S
  · rw [if_pos h, ← Nat.mod_add_mod, h, Nat.mod_self]
  · rw [if_neg h, ← Nat.mod_add_mod]
    exact Nat.mod_eq_of_lt (by omega)

/-- Advancing the examined slot by one decrements a nonzero slot
distance. -/
theorem dist_succ (a s S : Nat) (hS : 0 < S) (ha : a < S) (hs : s < S)
    (hne : (s + S - a) % S ≠ 0) :
    (s + S - (a + 1) % S) % S = (s + S - a) % S - 1 := by
  have h1 : (a + 1) % S = if a + 1 = S then 0 else a + 1 := by
    rw [succ_mod _ _ hS, Nat.mod_eq_of_lt ha]
  rw [dist_closed _ _ _ hS ha hs] at hne
  rw [h1]
  by_cases hb : a + 1 = S
  · rw [if_pos hb, dist_closed _ _ _ hS hS hs, dist_closed _ _ _ hS ha hs]
    split_ifs at hne ⊢ <;> omega
  · rw [if_neg hb, dist_closed _ _ _ hS (by omega) hs,
        dist_closed _ _ _ hS ha hs]
    split_ifs at hne ⊢ <;> omega

/-- From the examined slot itself, the distance to the same slot after one
step is a full rotation minus one. -/
theorem dist_succ_self (s S : Nat) (hS : 0 < S) (hs : s < S) :
    (s + S - (s + 1) % S) % S = S - 1 := by
  have h1 : (s + 1) % S = if s + 1 = S then 0 else s + 1 := by
    rw [succ_mod _ _ hS, Nat.mod_eq_of_lt hs]
  rw [h1]
  by_cases hb : s + 1 = S
  · rw [if_pos hb, dist_closed _ _ _ hS hS hs]
    split_ifs <;> omega
  · rw [if_neg hb, dist_closed _ _ _ hS (by omega) hs]
    split_ifs <;> omega

/-- One `tick()` preserves the slot count. -/
theorem tickOnce_steps {T : Type} (w : TimeWheel T) :
    (w.tickOnce).1.steps = w.steps := by
  simp only [TimeWheel.tickOnce]
  split <;> rfl

/-- One `tick()` increments the tick counter. -/
theorem tickOnce_tick {T : Type} (w : TimeWheel T) :
    (w.tickOnce).1.tick = w.tick + 1 := by
  simp only [TimeWheel.tickOnce]
  split <;> rfl

/-- One `tick()` leaves every slot other than the examined one untouched. -/
theorem tickOnce_hashed_other {T : Type} (w : TimeWheel T) (s : Nat)
    (h : s ≠ w.tick % w.steps) : (w.tickOnce).1.hashed s = w.hashed s := by
  simp only [TimeWheel.tickOnce]
  split
  · simp [update, h]
  · rfl

/-- One `tick()` on a present examined slot: the slot is reinserted with the
`round > 0` entries decremented, and the `round == 0` entries form the
ready list, both in order. -/
theorem tickOnce_hashed_step {T : Type} (w : TimeWheel T) (l : List (Nat × T))
    (h : w.hashed (w.tick % w.steps) = some l) :
    (w.tickOnce).1.hashed (w.tick % w.steps) =
      some (l.filterMap (fun e => if e.1 = 0 then none else some (e.1 - 1, e.2))) ∧
    (w.tickOnce).2 =
      some (l.filterMap (fun e => if e.1 = 0 then some e.2 else none)) := by
  simp only [TimeWheel.tickOnce, h]
  constructor <;> simp [update]

/-- One `tick()` on an absent examined slot leaves the table untouched and
reports `Pending`. -/
theorem tickOnce_ready_none {T : Type} (w : TimeWheel T)
    (h : w.hashed (w.tick % w.steps) = none) :
    (w.tickOnce).1.hashed = w.hashed ∧ (w.tickOnce).2 = none := by
  simp only [TimeWheel.tickOnce, h]
  constructor <;> simp [update]

/-- Splitting one slot list: reserved entries plus ready entries account
for every entry. -/
theorem countP_split {T : Type} (p : T → Bool) (l : List (Nat × T)) :
    (l.filterMap (fun e => if e.1 = 0 then none else some (e.1 - 1, e.2))).countP
        (fun e => p e.2) +
      (l.filterMap (fun e => if e.1 = 0 then some e.2 else none)).countP p =
      l.countP (fun e => p e.2) := by
  induction l with
  | nil => rfl
  | cons e l ih =>
      by_cases h : e.1 = 0 <;>
        simp [h, List.filterMap_cons, List.countP_cons] <;> omega

/-- Per-tick conservation: the entries counted in the wheel after one
`tick()` plus the values delivered ready by that tick account exactly for
the entries counted before it. -/
theorem tickOnce_countP {T : Type} (w : TimeWheel T) (p : T → Bool)
    (hS : 0 < w.steps) :
    (w.tickOnce).1.countP p + ((w.tickOnce).2.getD []).countP p = w.countP p := by
  have hstep : w.tick % w.steps < w.steps := Nat.mod_lt _ hS
  have hmem : w.tick % w.steps ∈ Finset.range w.steps := Finset.mem_range.mpr hstep
  cases h : w.hashed (w.tick % w.steps) with
  | none =>
      obtain ⟨h1, h2⟩ := tickOnce_ready_none w h
      simp [TimeWheel.countP, tickOnce_steps, h1, h2]
  | some l =>
      obtain ⟨h1, h2⟩ := tickOnce_hashed_step w l h
      unfold TimeWheel.countP
      rw [tickOnce_steps, h2]
      simp only [Option.getD_some]
      rw [← Finset.sum_erase_add _ _ hmem, ← Finset.sum_erase_add _ _ hmem]
      have hcongr :
          ∑ s ∈ (Finset.range w.steps).erase (w.tick % w.steps),
              (((w.tickOnce).1.hashed s).getD []).countP (fun e => p e.2) =
          ∑ s ∈ (Finset.range w.steps).erase (w.tick % w.steps),
              ((w.hashed s).getD []).countP (fun e => p e.2) := by
        apply Finset.sum_congr rfl
        intro s hsmem
        rw [tickOnce_hashed_other w s (Finset.ne_of_mem_erase hsmem)]
      rw [hcongr, h1, h]
      simp only [Option.getD_some]
      have := countP_split p l
      omega

/-- Iterated ticking preserves the slot count. -/
theorem tickN_steps {T : Type} (w : TimeWheel T) (n : Nat) :
    (w.tickN n).steps = w.steps := by
  induction n generalizing w with
  | zero => rfl
  | succ n ih => rw [TimeWheel.tickN, ih, tickOnce_steps]

/-- Conservation over any number of ticks: the wheel's entry count plus the
count of values delivered ready so far is invariant. -/
theorem tickN_conservation {T : Type} (w : TimeWheel T) (p : T → Bool)
    (hS : 0 < w.steps) (n : Nat) :
    (w.tickN n).countP p + w.readyCountN p n = w.countP p := by
  induction n generalizing w with
  | zero => simp [TimeWheel.tickN, TimeWheel.readyCountN]
  | succ n ih =>
      have h1 := tickOnce_countP w p hS
      have hS' : 0 < (w.tickOnce).1.steps := by rw [tickOnce_steps]; exact hS
      have h2 := ih (w.tickOnce).1 hS'
      rw [TimeWheel.tickN, TimeWheel.readyCountN]
      omega

/-- An entry `(r, v)` sitting in slot `s` is delivered by the tick whose
index is the slot distance plus `r` full rotations. -/
theorem fires_aux {T : Type} :
    ∀ (fd : Nat) (w : TimeWheel T) (s r : Nat) (v : T),
      0 < w.steps → s < w.steps →
      (r, v) ∈ (w.hashed s).getD [] →
      fd = (s + w.steps - w.tick % w.steps) % w.steps + r * w.steps →
      v ∈ w.readyAt fd := by
  intro fd
  induction fd with
  | zero =>
      intro w s r v hS hs hmem hfd
      have ha : w.tick % w.steps < w.steps := Nat.mod_lt _ hS
      have hd : (s + w.steps - w.tick % w.steps) % w.steps = 0 := by omega
      have hr : r = 0 := by
        have hrS : r * w.steps = 0 := by omega
        rcases Nat.mul_eq_zero.mp hrS with h | h
        · exact h
        · omega
      have heq : w.tick % w.steps = s := by
        rw [dist_closed _ _ _ hS ha hs] at hd
        split_ifs at hd <;> omega
      subst hr
      cases hh : w.hashed s with
      | none => rw [hh] at hmem; simp at hmem
      | some l =>
          rw [hh] at hmem
          simp only [Option.getD_some] at hmem
          have hstep : w.hashed (w.tick % w.steps) = some l := by rw [heq, hh]
          obtain ⟨_, h2⟩ := tickOnce_hashed_step w l hstep
          show v ∈ ((w.tickN 0).tickOnce).2.getD []
          rw [TimeWheel.tickN, h2]
          simp only [Option.getD_some]
          exact List.mem_filterMap.mpr ⟨(0, v), hmem, by simp⟩
  | succ fd ih =>
      intro w s r v hS hs hmem hfd
      have ha : w.tick % w.steps < w.steps := Nat.mod_lt _ hS
      have hra : w.readyAt (fd + 1) = ((w.tickOnce).1).readyAt fd := rfl
      rw [hra]
      have hsteps' : (w.tickOnce).1.steps = w.steps := tickOnce_steps w
      have htick' : (w.tickOnce).1.tick = w.tick + 1 := tickOnce_tick w
      by_cases hcase : w.tick % w.steps = s
      · have hd0 : (s + w.steps - w.tick % w.steps) % w.steps = 0 := by
          rw [hcase]
          have he : s + w.steps - s = w.steps := by omega
          rw [he, Nat.mod_self]
        have hrpos : 0 < r := by
          rcases Nat.eq_zero_or_pos r with h0 | h0
          · subst h0
            rw [zero_mul] at hfd
            omega
          · exact h0
        cases hh : w.hashed s with
        | none => rw [hh] at hmem; simp at hmem
        | some l =>
            rw [hh] at hmem
            simp only [Option.getD_some] at hmem
            have hstep : w.hashed (w.tick % w.steps) = some l := by rw [hcase, hh]
            obtain ⟨h1, _⟩ := tickOnce_hashed_step w l hstep
            rw [hcase] at h1
            apply ih (w.tickOnce).1 s (r - 1) v (by rw [hsteps']; exact hS)
              (by rw [hsteps']; exact hs)
            · rw [h1]
              simp only [Option.getD_some]
              refine List.mem_filterMap.mpr ⟨(r, v), hmem, ?_⟩
              rw [if_neg (by omega)]
            · rw [hsteps', htick']
              have hds : (s + w.steps - (w.tick + 1) % w.steps) % w.steps =
                  w.steps - 1 := by
                have hm : (w.tick + 1) % w.steps = (s + 1) % w.steps := by
                  rw [succ_mod _ _ hS, succ_mod _ _ hS, hcase,
                      Nat.mod_eq_of_lt hs]
                rw [hm]
                exact dist_succ_self s w.steps hS hs
              rw [hds]
              have hmul : (r - 1) * w.steps = r * w.steps - w.steps := by
                rw [Nat.sub_mul, one_mul]
              have hge : w.steps ≤ r * w.steps :=
                Nat.le_mul_of_pos_left _ hrpos
              omega
      · have hne : (s + w.steps - w.tick % w.steps) % w.steps ≠ 0 := by
          rw [dist_closed _ _ _ hS ha hs]
          split_ifs <;> omega
        have hmem' : (r, v) ∈ ((w.tickOnce).1.hashed s).getD [] := by
          rw [tickOnce_hashed_other w s (fun hc => hcase hc.symm)]
          exact hmem
        apply ih (w.tickOnce).1 s r v (by rw [hsteps']; exact hS)
          (by rw [hsteps']; exact hs) hmem'
        rw [hsteps', htick']
        have hds : (s + w.steps - (w.tick + 1) % w.steps) % w.steps =
            (s + w.steps - w.tick % w.steps) % w.steps - 1 := by
          have hm : (w.tick + 1) % w.steps = (w.tick % w.steps + 1) % w.steps := by
            rw [Nat.mod_add_mod]
          rw [hm]
          exact dist_succ (w.tick % w.steps) s w.steps hS ha hs hne
        rw [hds]
        omega

/-- Claim C10: `TimeWheel::tick` never loses a timer. On the examined slot
every `round > 0` entry is reinserted into the same slot with its round
decremented by exactly 1 (and the `round == 0` entries form the ready set,
in order); every other slot is untouched; over any number of ticks the
count of entries in the wheel plus the count of values ever delivered ready
is invariant; and every entry eventually appears in a ready set, at the
tick given by its slot distance plus its remaining rotations. -/
theorem timewheel_tick_preserves_timers :
    (∀ (T : Type) (w : TimeWheel T) (l : List (Nat × T)),
      w.hashed (w.tick % w.steps) = some l →
      (w.tickOnce).1.hashed (w.tick % w.steps) =
        some (l.filterMap (fun e => if e.1 = 0 then none else some (e.1 - 1, e.2))) ∧
      (w.tickOnce).2 =
        some (l.filterMap (fun e => if e.1 = 0 then some e.2 else none))) ∧
    (∀ (T : Type) (w : TimeWheel T) (s : Nat), s ≠ w.tick % w.steps →
      (w.tickOnce).1.hashed s = w.hashed s) ∧
    (∀ (T : Type) (w : TimeWheel T) (p : T → Bool), 0 < w.steps →
      ∀ n, (w.tickN n).countP p + w.readyCountN p n = w.countP p) ∧
    (∀ (T : Type) (w : TimeWheel T) (s r : Nat) (v : T),
      0 < w.steps → s < w.steps → (r, v) ∈ (w.hashed s).getD [] →
      v ∈ w.readyAt (w.fireDelay s r)) := by
  refine ⟨?_, ?_, ?_, ?_⟩
  · intro T w l h
    exact tickOnce_hashed_step w l h
  · intro T w s h
    exact tickOnce_hashed_other w s h
  · intro T w p hS n
    exact tickN_conservation w p hS n
  · intro T w s r v hS hs hmem
    exact fires_aux _ w s r v hS hs hmem rfl

/-- Witness for C10 on the concrete two-slot wheel `demoWheel`: the first
tick splits slot 0 into ready `[5]` and an empty reserved list, slot 1 is
untouched, conservation holds over four ticks for the value 9, and the
round-1 entry `9` in slot 1 fires at its computed delay. -/
theorem timewheel_tick_preserves_timers_witness :
    ((demoWheel.tickOnce).1.hashed 0 = some [] ∧
      (demoWheel.tickOnce).2 = some [5]) ∧
    (demoWheel.tickOnce).1.hashed 1 = demoWheel.hashed 1 ∧
    ((demoWheel.tickN 4).countP (fun v => decide (v = 9)) +
        demoWheel.readyCountN (fun v => decide (v = 9)) 4 =
      demoWheel.countP (fun v => decide (v = 9))) ∧
    9 ∈ demoWheel.readyAt (demoWheel.fireDelay 1 1) :=
  ⟨timewheel_tick_preserves_timers.1 Nat demoWheel [(0, 5)] rfl,
   timewheel_tick_preserves_timers.2.1 Nat demoWheel 1 (by decide),
   timewheel_tick_preserves_timers.2.2.1 Nat demoWheel
     (fun v => decide (v = 9)) (by decide) 4,
   timewheel_tick_preserves_timers.2.2.2 Nat demoWheel 1 1 9 (by decide)
     (by decide) (by decide)⟩
